import Mathlib

set_option maxRecDepth 100000

/-!
Shallow embedding of the redux-protocol twitter posting pipeline
(packages/client-twitter `TwitterPostClient` and its helpers) together with
theorems settling the specification claims.  Strings are modelled as
`List Char`; JavaScript string primitives (`slice`, `lastIndexOf`, `trim`)
are embedded with their ECMAScript semantics, including negative-index
handling in `slice` and the `-1` sentinel of `lastIndexOf`.
-/

namespace ReduxProtocol

/-- Characters that JavaScript `trim` and the regex class `\s` treat as
whitespace (restricted to the ASCII range, which covers every string the
development evaluates). -/
def isJsWs (c : Char) : Bool :=
  c = ' ' || c = '\t' || c = '\n' || c = '\r' || c = '\x0b' || c = '\x0c'

/-- Drop a leading run of whitespace (the `\s*` part of a regex match). -/
def dropWs (s : List Char) : List Char := s.dropWhile isJsWs

/-- JavaScript `String.prototype.trim`. -/
def jsTrim (s : List Char) : List Char :=
  ((s.dropWhile isJsWs).reverse.dropWhile isJsWs).reverse

/-- Resolve a JavaScript `slice` index: negative indices count from the end,
then the result is clamped to `[0, len]`. -/
def jsSliceIndex (len : Nat) (i : Int) : Nat :=
  if i < 0 then (max ((len : Int) + i) 0).toNat else min i.toNat len

/-- JavaScript `String.prototype.slice(start, stop)`. -/
def jsSlice (s : List Char) (start stop : Int) : List Char :=
  (s.take (jsSliceIndex s.length stop)).drop (jsSliceIndex s.length start)

/-- Helper for `jsLastIndexOf`: scan the list tracking the best index found. -/
def jsLastIndexOfAux (c : Char) (fromIndex : Nat) : List Char → Nat → Int → Int
  | [], _, best => best
  | x :: rest, idx, best =>
      jsLastIndexOfAux c fromIndex rest (idx + 1)
        (if x = c && idx ≤ fromIndex then (idx : Int) else best)

/-- JavaScript `String.prototype.lastIndexOf(c, fromIndex)` for a one-character
needle: the largest index `≤ fromIndex` holding `c`, or `-1`. -/
def jsLastIndexOf (s : List Char) (c : Char) (fromIndex : Nat) : Int :=
  jsLastIndexOfAux c fromIndex s 0 (-1)

/-- `"..."` as a character list (the ellipsis marker appended on truncation). -/
def ellipsis : List Char := ['.', '.', '.']

/-- Embedding of `truncateToCompleteSentence(text, maxTweetLength)` from the
twitter post client, including the JavaScript behaviour that
`text.slice(0, -1)` (from a failed `lastIndexOf` returning `-1`) drops only
the final character. -/
def truncateToCompleteSentence (text : List Char) (maxTweetLength : Nat) : List Char :=
  if text.length ≤ maxTweetLength then text
  else
    let truncatedAtPeriod := jsSlice text 0 (jsLastIndexOf text '.' maxTweetLength + 1)
    if 0 < (jsTrim truncatedAtPeriod).length then jsTrim truncatedAtPeriod
    else
      let truncatedAtSpace := jsSlice text 0 (jsLastIndexOf text ' ' maxTweetLength)
      if 0 < (jsTrim truncatedAtSpace).length then jsTrim truncatedAtSpace ++ ellipsis
      else jsTrim (jsSlice text 0 ((maxTweetLength : Int) - 3)) ++ ellipsis

/-- The backtick character (used by the markdown code-fence patterns). -/
def backtickChar : Char := Char.ofNat 96

/-- The opening-brace character. -/
def lbraceChar : Char := Char.ofNat 123

/-- The closing-brace character. -/
def rbraceChar : Char := Char.ofNat 125

/-- Whitespace accepted between JSON tokens by `JSON.parse` (ECMA-404). -/
def isJsonWs (c : Char) : Bool :=
  c = ' ' || c = '\t' || c = '\n' || c = '\r'

/-- JSON values as produced by `JSON.parse`.  Numbers keep their raw digit
text: no claim depends on numeric evaluation, only on zero-ness. -/
inductive JsonValue where
  | jnull
  | jbool (b : Bool)
  | jnum (raw : List Char)
  | jstr (s : List Char)
  | jarr (elems : List JsonValue)
  | jobj (fields : List (List Char × JsonValue))

/-- Value of a hexadecimal digit, if the character is one. -/
def hexVal (c : Char) : Option Nat :=
  if '0' ≤ c ∧ c ≤ '9' then some (c.toNat - '0'.toNat)
  else if 'a' ≤ c ∧ c ≤ 'f' then some (c.toNat - 'a'.toNat + 10)
  else if 'A' ≤ c ∧ c ≤ 'F' then some (c.toNat - 'A'.toNat + 10)
  else none

/-- Meaning of a single-character JSON string escape (`\"`, `\\`, `\/`,
`\b`, `\f`, `\n`, `\r`, `\t`). -/
def jsonEscChar (c : Char) : Option Char :=
  if c = '"' then some '"'
  else if c = '\\' then some '\\'
  else if c = '/' then some '/'
  else if c = 'b' then some (Char.ofNat 8)
  else if c = 'f' then some (Char.ofNat 12)
  else if c = 'n' then some '\n'
  else if c = 'r' then some '\r'
  else if c = 't' then some '\t'
  else none

/-- Parse the body of a JSON string (the opening quote already consumed).
Unescaped control characters below U+0020 are rejected, exactly as
`JSON.parse` rejects them.  The first argument is fuel (the input length
suffices). -/
def parseStringBody : Nat → List Char → Option (List Char × List Char)
  | 0, _ => none
  | fuel + 1, s =>
    match s with
    | [] => none
    | c :: rest =>
      if c = '"' then some ([], rest)
      else if c = '\\' then
        match rest with
        | [] => none
        | e :: rest2 =>
          if e = 'u' then
            match rest2 with
            | h1 :: h2 :: h3 :: h4 :: rest3 =>
              match hexVal h1, hexVal h2, hexVal h3, hexVal h4 with
              | some a, some b, some c2, some d =>
                (parseStringBody fuel rest3).map
                  (fun p => (Char.ofNat (((a * 16 + b) * 16 + c2) * 16 + d) :: p.1, p.2))
              | _, _, _, _ => none
            | _ => none
          else
            match jsonEscChar e with
            | some ch => (parseStringBody fuel rest2).map (fun p => (ch :: p.1, p.2))
            | none => none
      else if c.toNat < 32 then none
      else (parseStringBody fuel rest).map (fun p => (c :: p.1, p.2))

/-- Parse a JSON number (grammar `-? int frac? exp?`), returning its raw
text and the remainder.  Malformed trailing digits (for example a leading
zero followed by more digits) surface as unconsumed input and make the
enclosing parse fail, as with `JSON.parse`. -/
def parseNumberRaw (s : List Char) : Option (List Char × List Char) :=
  let (neg, s1) := match s with
    | c :: rest => if c = '-' then (['-'], rest) else (([] : List Char), c :: rest)
    | [] => ([], [])
  match s1 with
  | [] => none
  | c :: rest =>
    if c = '0' then
      let intPart := ['0']
      let afterInt := rest
      let (fracPart, afterFrac) := match afterInt with
        | '.' :: r =>
          let ds := r.takeWhile Char.isDigit
          if ds = [] then ([], afterInt) else ('.' :: ds, r.dropWhile Char.isDigit)
        | _ => ([], afterInt)
      let (expPart, afterExp) := match afterFrac with
        | e :: r =>
          if e = 'e' || e = 'E' then
            let (sign, r2) := match r with
              | sc :: rr => if sc = '+' || sc = '-' then ([sc], rr) else (([] : List Char), sc :: rr)
              | [] => ([], [])
            let ds := r2.takeWhile Char.isDigit
            if ds = [] then ([], afterFrac) else (e :: sign ++ ds, r2.dropWhile Char.isDigit)
          else ([], afterFrac)
        | [] => ([], afterFrac)
      some (neg ++ intPart ++ fracPart ++ expPart, afterExp)
    else if c.isDigit then
      let ds := (c :: rest).takeWhile Char.isDigit
      let afterInt := (c :: rest).dropWhile Char.isDigit
      let (fracPart, afterFrac) := match afterInt with
        | '.' :: r =>
          let fs := r.takeWhile Char.isDigit
          if fs = [] then ([], afterInt) else ('.' :: fs, r.dropWhile Char.isDigit)
        | _ => ([], afterInt)
      let (expPart, afterExp) := match afterFrac with
        | e :: r =>
          if e = 'e' || e = 'E' then
            let (sign, r2) := match r with
              | sc :: rr => if sc = '+' || sc = '-' then ([sc], rr) else (([] : List Char), sc :: rr)
              | [] => ([], [])
            let es := r2.takeWhile Char.isDigit
            if es = [] then ([], afterFrac) else (e :: sign ++ es, r2.dropWhile Char.isDigit)
          else ([], afterFrac)
        | [] => ([], afterFrac)
      some (neg ++ ds ++ fracPart ++ expPart, afterExp)
    else none

/-- Parsing mode of the combined JSON parser: a value, the field list of an
object, or the element list of an array (the flag marks whether a closing
bracket may come immediately, i.e. no member parsed yet). -/
inductive PMode where
  | value
  | objFields (first : Bool)
  | arrElems (first : Bool)

/-- Output alternatives of the combined JSON parser, matching `PMode`. -/
inductive POut where
  | val (v : JsonValue)
  | fields (l : List (List Char × JsonValue))
  | elems (l : List JsonValue)

/-- Recursive-descent JSON parser, combined into one function structural in
its fuel so that it evaluates by kernel reduction.  Faithful to `JSON.parse`
on the fragment exercised here: leading whitespace skipping, strings with
escapes and the control-character restriction, objects, arrays, numbers and
the three literals; trailing-comma and garbage inputs fail. -/
def parseJson : Nat → PMode → List Char → Option (POut × List Char)
  | 0, _, _ => none
  | fuel + 1, PMode.value, s =>
    match List.dropWhile isJsonWs s with
    | [] => none
    | c :: rest =>
      if c = '"' then
        match parseStringBody (fuel + 1) rest with
        | some (str, rest2) => some (POut.val (JsonValue.jstr str), rest2)
        | none => none
      else if c = lbraceChar then
        match parseJson fuel (PMode.objFields true) (List.dropWhile isJsonWs rest) with
        | some (POut.fields l, rest2) => some (POut.val (JsonValue.jobj l), rest2)
        | _ => none
      else if c = '[' then
        match parseJson fuel (PMode.arrElems true) (List.dropWhile isJsonWs rest) with
        | some (POut.elems l, rest2) => some (POut.val (JsonValue.jarr l), rest2)
        | _ => none
      else if c = 't' then
        match rest with
        | 'r' :: 'u' :: 'e' :: rest2 => some (POut.val (JsonValue.jbool true), rest2)
        | _ => none
      else if c = 'f' then
        match rest with
        | 'a' :: 'l' :: 's' :: 'e' :: rest2 => some (POut.val (JsonValue.jbool false), rest2)
        | _ => none
      else if c = 'n' then
        match rest with
        | 'u' :: 'l' :: 'l' :: rest2 => some (POut.val JsonValue.jnull, rest2)
        | _ => none
      else if c = '-' || c.isDigit then
        match parseNumberRaw (c :: rest) with
        | some (raw, rest2) => some (POut.val (JsonValue.jnum raw), rest2)
        | none => none
      else none
  | fuel + 1, PMode.objFields first, s =>
    match s with
    | [] => none
    | c :: rest =>
      if first && c = rbraceChar then some (POut.fields [], rest)
      else if c = '"' then
        match parseStringBody (fuel + 1) rest with
        | some (key, rest2) =>
          match List.dropWhile isJsonWs rest2 with
          | ':' :: rest3 =>
            match parseJson fuel PMode.value rest3 with
            | some (POut.val v, rest4) =>
              match List.dropWhile isJsonWs rest4 with
              | ',' :: rest5 =>
                match parseJson fuel (PMode.objFields false) (List.dropWhile isJsonWs rest5) with
                | some (POut.fields l, rest6) => some (POut.fields ((key, v) :: l), rest6)
                | _ => none
              | c2 :: rest5 =>
                if c2 = rbraceChar then some (POut.fields [(key, v)], rest5) else none
              | [] => none
            | _ => none
          | _ => none
        | none => none
      else none
  | fuel + 1, PMode.arrElems first, s =>
    match s with
    | [] => none
    | c :: rest =>
      if first && c = ']' then some (POut.elems [], rest)
      else
        match parseJson fuel PMode.value (c :: rest) with
        | some (POut.val v, rest2) =>
          match List.dropWhile isJsonWs rest2 with
          | ',' :: rest3 =>
            match parseJson fuel (PMode.arrElems false) (List.dropWhile isJsonWs rest3) with
            | some (POut.elems l, rest4) => some (POut.elems (v :: l), rest4)
            | _ => none
          | ']' :: rest3 => some (POut.elems [v], rest3)
          | _ => none
        | _ => none

/-- `JSON.parse` on a whole string: one value, then only whitespace may
remain; `none` models a thrown `SyntaxError`. -/
def jsonParse (s : List Char) : Option JsonValue :=
  match parseJson (s.length + 1) PMode.value s with
  | some (POut.val v, rest) =>
    if (List.dropWhile isJsonWs rest).isEmpty then some v else none
  | _ => none

/-- Field read on a parsed object; with duplicate keys `JSON.parse` keeps
the last binding, so lookup prefers later fields. -/
def jsonGetField : List (List Char × JsonValue) → List Char → Option JsonValue
  | [], _ => none
  | (k, v) :: rest, key =>
    match jsonGetField rest key with
    | some v2 => some v2
    | none => if k = key then some v else none

/-- JavaScript truthiness of a parsed JSON value (a JSON number is zero
exactly when all of its digit characters are `0`). -/
def jsTruthy : JsonValue → Bool
  | JsonValue.jnull => false
  | JsonValue.jbool b => b
  | JsonValue.jstr s => !s.isEmpty
  | JsonValue.jnum raw => !(raw.filter Char.isDigit).all (· = '0')
  | JsonValue.jarr _ => true
  | JsonValue.jobj _ => true

end ReduxProtocol

namespace ReduxProtocol

/-- The pattern of the regex `/```json\s*/g` up to its whitespace tail. -/
def fenceJson : List Char := [backtickChar, backtickChar, backtickChar, 'j', 's', 'o', 'n']

/-- The pattern of the regex `/```\s*/g` up to its whitespace tail. -/
def fence : List Char := [backtickChar, backtickChar, backtickChar]

/-- Global replacement of `pat` followed by a greedy whitespace run with the
empty string, scanning left to right as a `/g` regex replace does.  Fuel is
the input length. -/
def stripPatternWs : Nat → List Char → List Char → List Char
  | 0, _, s => s
  | fuel + 1, pat, s =>
    match s with
    | [] => []
    | c :: rest =>
      if pat.isPrefixOf (c :: rest) then
        stripPatternWs fuel pat (dropWs ((c :: rest).drop pat.length))
      else c :: stripPatternWs fuel pat rest

/-- Global replacement of the literal two-character sequence backslash-`n`
with a real newline (`.replaceAll(/\\n/g, "\n")`). -/
def fixNewLinesList : List Char → List Char
  | [] => []
  | '\\' :: 'n' :: rest => '\n' :: fixNewLinesList rest
  | c :: rest => c :: fixNewLinesList rest

/-- The markdown-and-newline cleanup at the head of `generateTweetContent`:
strip ```` ```json ```` fences, stray ```` ``` ```` fences, unescape `\n`,
then trim. -/
def cleanedResponseOf (response : List Char) : List Char :=
  jsTrim (fixNewLinesList
    (stripPatternWs (response.length + 1) fence
      (stripPatternWs (response.length + 1) fenceJson response)))

/-- Embedding of `trimTweetLength(text, maxLength)` (the helper used by
`generateTweetContent`); the source default for `maxLength` is 280. -/
def trimTweetLength (text : List Char) (maxLength : Nat) : List Char :=
  if text.length ≤ maxLength then text
  else
    let window := jsSlice text 0 (maxLength : Int)
    let lastSentence := jsLastIndexOf window '.' window.length
    if 0 < lastSentence then jsTrim (jsSlice text 0 (lastSentence + 1))
    else jsTrim (jsSlice text 0 (jsLastIndexOf text ' ' (maxLength - 3))) ++ ellipsis

/-- Key `"text"`. -/
def textKey : List Char := ['t', 'e', 'x', 't']

/-- Key `"content"`. -/
def contentKey : List Char := ['c', 'o', 'n', 't', 'e', 'n', 't']

/-- Key `"message"`. -/
def messageKey : List Char := ['m', 'e', 's', 's', 'a', 'g', 'e']

/-- Key `"response"`. -/
def responseKey : List Char := ['r', 'e', 's', 'p', 'o', 'n', 's', 'e']

/-- `jsonResponse.content || jsonResponse.message || jsonResponse.response`:
the first truthy of the three alias fields. -/
def firstAliasField (fields : List (List Char × JsonValue)) : Option JsonValue :=
  match jsonGetField fields contentKey with
  | some v =>
    if jsTruthy v then some v
    else match jsonGetField fields messageKey with
      | some v2 =>
        if jsTruthy v2 then some v2
        else match jsonGetField fields responseKey with
          | some v3 => if jsTruthy v3 then some v3 else none
          | none => none
      | none =>
        match jsonGetField fields responseKey with
        | some v3 => if jsTruthy v3 then some v3 else none
        | none => none
  | none =>
    match jsonGetField fields messageKey with
    | some v2 =>
      if jsTruthy v2 then some v2
      else match jsonGetField fields responseKey with
        | some v3 => if jsTruthy v3 then some v3 else none
        | none => none
    | none =>
      match jsonGetField fields responseKey with
      | some v3 => if jsTruthy v3 then some v3 else none
      | none => none

/-- Embedding of `generateTweetContent`'s deterministic post-processing of
the LLM response: fence/newline cleanup, `JSON.parse` attempt, extraction of
`text` (or the `content`/`message`/`response` aliases) when truthy, and the
plain-text fallback.  A parse failure, a `null` result (whose `.text` access
throws and is caught), or a truthy non-string field (whose `trimTweetLength`
call throws and is caught) all end in the fallback return of the cleaned
string, as in the source's try/catch structure. -/
def generateTweetContent (response : List Char) : List Char :=
  let cleanedResponse := cleanedResponseOf response
  let fallback := trimTweetLength cleanedResponse 280
  match jsonParse cleanedResponse with
  | none => fallback
  | some v =>
    match v with
    | JsonValue.jobj fields =>
      match jsonGetField fields textKey with
      | some tv =>
        if jsTruthy tv then
          match tv with
          | JsonValue.jstr str => trimTweetLength str 280
          | _ => fallback
        else
          match firstAliasField fields with
          | some (JsonValue.jstr str) => trimTweetLength str 280
          | some _ => fallback
          | none => fallback
      | none =>
        match firstAliasField fields with
        | some (JsonValue.jstr str) => trimTweetLength str 280
        | some _ => fallback
        | none => fallback
    | _ => fallback

/-- Match of the first alternative of the regex
`/^\s*\x7b?\s*"text":\s*"|"\s*\x7d?\s*$/g` at position 0 (optional
whitespace, optional opening brace, optional whitespace, the literal
`"text":`, optional whitespace, an opening quote); returns the remainder
after the match. -/
def matchTextWrapperHead (s : List Char) : Option (List Char) :=
  let s1 := dropWs s
  let s2 := match s1 with
    | c :: r => if c = lbraceChar then dropWs r else s1
    | [] => s1
  match s2 with
  | '"' :: 't' :: 'e' :: 'x' :: 't' :: '"' :: ':' :: r =>
    match dropWs r with
    | '"' :: r2 => some r2
    | _ => none
  | _ => none

/-- Whether a suffix matches `\s*\x7d?\s*$`: whitespace around at most one
closing brace, running to the end of the string. -/
def wrapperTailMatches (rest : List Char) : Bool :=
  match dropWs rest with
  | [] => true
  | c :: r2 => c = rbraceChar && (dropWs r2).isEmpty

/-- Remove the second alternative of the wrapper regex: the leftmost `"`
whose remaining suffix matches `\s*\x7d?\s*$` is cut, together with
everything after it. -/
def removeWrapperTail : List Char → List Char
  | [] => []
  | c :: rest =>
    if c = '"' && wrapperTailMatches rest then []
    else c :: removeWrapperTail rest

/-- The whole `.replace(/^\s*\x7b?\s*"text":\s*"|"\s*\x7d?\s*$/g, "")` step:
strip the JSON-like wrapper head if it matches at position 0, then cut the
leftmost wrapper tail. -/
def replaceTextWrapper (s : List Char) : List Char :=
  match matchTextWrapperHead s with
  | some r => removeWrapperTail r
  | none => removeWrapperTail s

/-- Quote characters accepted by the wrapper-quote regex class. -/
def isQuoteChar (c : Char) : Bool := c = '\'' || c = '"'

/-- The `.replace(/^['"](.*)['"]$/g, "$1")` step.  The dot does not match
line terminators, so the pattern only matches when the whole string is a
quote, a terminator-free middle, and a quote; then the quotes are dropped. -/
def removeQuotesList (s : List Char) : List Char :=
  match s with
  | [] => []
  | c :: rest =>
    if rest.isEmpty then c :: rest
    else
      let mid := rest.dropLast
      let lastC := rest.getLastD ' '
      if isQuoteChar c && isQuoteChar lastC
          && mid.all (fun x => x ≠ '\n' && x ≠ '\r') then mid
      else c :: rest

/-- The `.replace(/\\"/g, '"')` step: unescape escaped double quotes. -/
def unescapeQuotesList : List Char → List Char
  | [] => []
  | '\\' :: '"' :: rest => '"' :: unescapeQuotesList rest
  | c :: rest => c :: unescapeQuotesList rest

/-- The regex fallback cleaning in `generateNewTweet`'s catch branch:
wrapper strip, quote strip, quote unescape, newline unescape, trim. -/
def regexCleanContent (s : List Char) : List Char :=
  jsTrim (fixNewLinesList (unescapeQuotesList (removeQuotesList (replaceTextWrapper s))))

/-- Result of `generateNewTweet`'s first content-cleaning block: either the
string value of `cleanedContent`, or a deferred JavaScript type error (a
truthy non-string `text` field) that the surrounding try/catch turns into an
abort of the whole generation run. -/
inductive CleanedContent where
  | ok (s : List Char)
  | jsError

/-- Embedding of the `cleanedContent` computation in `generateNewTweet`:
try `JSON.parse` on the raw LLM output; take a truthy `text` field of an
object, or the parsed value when it is itself a string; a parse failure (or
a thrown `null` member access) ends in the regex fallback; any other parsed
value leaves `cleanedContent` empty. -/
def cleanNewTweetContent (newTweetContent : List Char) : CleanedContent :=
  match jsonParse newTweetContent with
  | some (JsonValue.jobj fields) =>
    match jsonGetField fields textKey with
    | some tv =>
      if jsTruthy tv then
        match tv with
        | JsonValue.jstr str => CleanedContent.ok str
        | _ => CleanedContent.jsError
      else CleanedContent.ok []
    | none => CleanedContent.ok []
  | some (JsonValue.jstr str) => CleanedContent.ok str
  | some JsonValue.jnull => CleanedContent.ok (regexCleanContent newTweetContent)
  | some _ => CleanedContent.ok []
  | none => CleanedContent.ok (regexCleanContent newTweetContent)

/-- The `removeQuotes` arrow function applied as final cleaning in
`generateNewTweet` (same single-match pattern as `removeQuotesList`). -/
def removeQuotes (s : List Char) : List Char := removeQuotesList s

/-- The `fixNewLines` arrow function (`replaceAll(/\\n/g, "\n")`). -/
def fixNewLines (s : List Char) : List Char := fixNewLinesList s

/-- Status column of a stored tweet: saved as `"pending"`, set to
`"approved"` by the external approval tooling, and moved to `"sent"` or
`"error"` by the dispatch path. -/
inductive TweetStatus where
  | pending
  | approved
  | sent
  | error
deriving DecidableEq

/-- A stored tweet record, restricted to the columns the claims touch
(identity, content, status). -/
structure DBTweet where
  id : Nat
  content : List Char
  status : TweetStatus
deriving DecidableEq

/-- Modelled from the spec: the durable record store (`tweetQueries`), whose
implementation lives outside `src/`; per section 6 it is a record-oriented
store keyed by id with status-update and list-by-status queries.  Modelled
as the list of rows. -/
abbrev Store := List DBTweet

/-- The outbound network calls the client can make against the social API. -/
inductive NetCall where
  | sendTweet
  | sendQuoteTweet
  | likeTweet
  | retweet
deriving DecidableEq

/-- Observable events of one pipeline run: database writes, network calls
(tagged with whether they went through `requestQueue.add`), cache writes,
admin-log writes and memory records. -/
inductive Event where
  | dbSave (id : Nat)
  | dbMarkSent (id : Nat)
  | dbMarkError (id : Nat)
  | dbUpdateStatus (id : Nat) (s : TweetStatus)
  | queuedCall (c : NetCall)
  | directCall (c : NetCall)
  | adminLog
  | cacheWrite
  | memoryWrite (executed : List String)
deriving DecidableEq

/-- Modelled from the spec: `tweetQueries.updateTweetStatus` — set the
status of every row with the given id. -/
def updateTweetStatus (store : Store) (id : Nat) (s : TweetStatus) : Store :=
  store.map (fun t => if t.id = id then { t with status := s } else t)

/-- Modelled from the spec: `tweetQueries.markTweetAsSent`. -/
def markTweetAsSent (store : Store) (id : Nat) : Store :=
  updateTweetStatus store id TweetStatus.sent

/-- Modelled from the spec: `tweetQueries.markTweetAsError`. -/
def markTweetAsError (store : Store) (id : Nat) : Store :=
  updateTweetStatus store id TweetStatus.error

/-- Modelled from the spec: `tweetQueries.getSentTweetById` — the rows with
the given id, whose statuses the caller inspects for `"sent"`. -/
def getSentTweetById (store : Store) (id : Nat) : List DBTweet :=
  store.filter (fun t => t.id = id)

/-- Modelled from the spec: `tweetQueries.getApprovedTweets` — the rows in
`"approved"` status. -/
def getApprovedTweets (store : Store) : List DBTweet :=
  store.filter (fun t => t.status = TweetStatus.approved)

/-- Outcome of one queued delivery attempt in `sendTweetAndUpdateCache`:
the queue task threw (caught, `null` returned), the response body lacked
`data.create_tweet.tweet_results.result`, or the delivery succeeded. -/
inductive DispatchOutcome where
  | queueThrow
  | badBody
  | success
deriving DecidableEq

/-- Embedding of `sendTweetAndUpdateCache(content, …, savedTweetId, …)`:
submit the send through the request queue; on a caught queue error return
`null` with no store change; on a bad body set the saved row to `"error"`
and write an admin log; on success set it to `"sent"`, write the caches and
create the post memory record. -/
def sendTweetAndUpdateCache (store : Store) (savedTweetId : Option Nat)
    (outcome : DispatchOutcome) : Store × List Event :=
  match outcome with
  | DispatchOutcome.queueThrow => (store, [Event.queuedCall NetCall.sendTweet])
  | DispatchOutcome.badBody =>
    let store2 := match savedTweetId with
      | some id => updateTweetStatus store id TweetStatus.error
      | none => store
    let statusEvs := match savedTweetId with
      | some id => [Event.dbUpdateStatus id TweetStatus.error]
      | none => []
    (store2, Event.queuedCall NetCall.sendTweet :: statusEvs ++ [Event.adminLog])
  | DispatchOutcome.success =>
    let store2 := match savedTweetId with
      | some id => updateTweetStatus store id TweetStatus.sent
      | none => store
    let statusEvs := match savedTweetId with
      | some id => [Event.dbUpdateStatus id TweetStatus.sent]
      | none => []
    (store2, Event.queuedCall NetCall.sendTweet :: statusEvs
      ++ [Event.cacheWrite, Event.cacheWrite, Event.memoryWrite []])

/-- Embedding of the per-tweet body of `checkAndSendApprovedTweets` for one
id: skip in dry-run mode; check the rows for a `"sent"` status and skip on a
duplicate; otherwise mark the row `"sent"` first (the claim) and only then
run the queued delivery, marking `"error"` if the delivery call throws. -/
def dispatchApprovedTweet (store : Store) (tweetId : Nat) (dryRun : Bool)
    (outcome : DispatchOutcome) : Store × List Event :=
  if dryRun then (store, [])
  else
    let tweetInDB := getSentTweetById store tweetId
    let alreadySent := (tweetInDB.map (fun t => t.status)).contains TweetStatus.sent
    if alreadySent then (store, [])
    else
      let store1 := markTweetAsSent store tweetId
      let (store2, evs) := sendTweetAndUpdateCache store1 (some tweetId) outcome
      (store2, Event.dbMarkSent tweetId :: evs)

/-- Two sequential dispatch calls on the same id (the claim scenario),
returning the final store and the concatenated event trace. -/
def dispatchTwice (store : Store) (tweetId : Nat)
    (o1 o2 : DispatchOutcome) : Store × List Event :=
  let r1 := dispatchApprovedTweet store tweetId false o1
  let r2 := dispatchApprovedTweet r1.1 tweetId false o2
  (r2.1, r1.2 ++ r2.2)

/-- Whether an event is a post delivery submitted to the network. -/
def isTweetSend : Event → Bool
  | Event.queuedCall NetCall.sendTweet => true
  | _ => false

/-- Number of post deliveries submitted to the network in a trace. -/
def tweetSendCount (evs : List Event) : Nat :=
  (evs.filter isTweetSend).length

/-- `MAX_TWEET_LENGTH` from the post client. -/
def MAX_TWEET_LENGTH : Nat := 240

/-- Embedding of `generateNewTweet`: clean the LLM output, stop on empty
content or dry run, otherwise save the candidate as a `"pending"` row via
`saveTweetToDb` and then immediately submit the send through the request
queue (lines 1053-1058 of the client), without any approval step and
without ever updating the saved row's status.  A queue error or a bad
response body is caught and only ends the run. -/
def generateNewTweet (store : Store) (newId : Nat) (dryRun : Bool)
    (newTweetContent : List Char) (outcome : DispatchOutcome) : Store × List Event :=
  match cleanNewTweetContent newTweetContent with
  | CleanedContent.jsError => (store, [])
  | CleanedContent.ok cleaned =>
    if cleaned.isEmpty then (store, [])
    else
      let content := truncateToCompleteSentence cleaned MAX_TWEET_LENGTH
      -- the final cleaning feeds only the send payload, which no claim observes
      let _cleanedContent := removeQuotes (fixNewLines content)
      if dryRun then (store, [])
      else
        let store1 := store ++ [{ id := newId, content := content, status := TweetStatus.pending }]
        match outcome with
        | DispatchOutcome.queueThrow =>
          (store1, [Event.dbSave newId, Event.queuedCall NetCall.sendTweet])
        | DispatchOutcome.badBody =>
          (store1, [Event.dbSave newId, Event.queuedCall NetCall.sendTweet])
        | DispatchOutcome.success =>
          (store1, [Event.dbSave newId, Event.queuedCall NetCall.sendTweet,
            Event.cacheWrite, Event.cacheWrite, Event.memoryWrite []])

/-- Outcome of one content-generation call inside the action processor:
the call threw, or it returned a string (possibly empty — "nothing
usable"). -/
inductive GenResult where
  | throws
  | ok (s : List Char)

/-- The flags returned by `generateTweetActions` for one timeline tweet. -/
structure ActionResponse where
  like : Bool
  retweet : Bool
  quote : Bool
  reply : Bool
deriving DecidableEq

/-- The per-tweet inputs of one `processTweetActions` iteration: whether a
memory record already exists, the decided action flags (`none` models "no
valid actions generated"), and the outcomes of the external calls each
flagged action performs. -/
structure TweetActionInput where
  tweetId : Nat
  alreadyProcessed : Bool
  actionResponse : Option ActionResponse
  likeOk : Bool
  retweetOk : Bool
  quoteGen : GenResult
  quoteBodyOk : Bool
  replyGen : GenResult
  replyBodyOk : Bool

/-- What processing one timeline tweet produced: its event trace, the
recorded executed actions, whether the completion memory record was
written, whether the branch aborted the entire `processTweetActions` run
(the `return` in the quote branch), and whether a result row was pushed. -/
structure ProcessOneResult where
  events : List Event
  executedActions : List String
  memoryRecorded : Bool
  abortsRun : Bool
  resultPushed : Bool

/-- Embedding of `handleTextOnlyReply`: generation errors and empty reply
text are absorbed inside the helper; otherwise the reply is sent through
the request queue and `"reply"` is pushed to the executed actions exactly
when the response body is well-formed. -/
def handleTextOnlyReply (inp : TweetActionInput) : List Event × List String :=
  match inp.replyGen with
  | GenResult.throws => ([], [])
  | GenResult.ok s =>
    if s.isEmpty then ([], [])
    else if inp.replyBodyOk then
      ([Event.queuedCall NetCall.sendTweet, Event.cacheWrite], ["reply"])
    else ([Event.queuedCall NetCall.sendTweet], [])

/-- Embedding of the quote branch of `processTweetActions` (run when the
`quote` flag is set): a thrown content generation is caught by the branch's
own handler; EMPTY generated content hits the branch's plain `return`,
which exits the whole `processTweetActions` call (the third component);
otherwise the quote is sent through the request queue and recorded as
executed exactly when the response body is well-formed. -/
def quoteTweetStep (inp : TweetActionInput) : List Event × List String × Bool :=
  match inp.quoteGen with
  | GenResult.throws => ([], [], false)
  | GenResult.ok s =>
    if s.isEmpty then ([], [], true)
    else if inp.quoteBodyOk then
      ([Event.queuedCall NetCall.sendQuoteTweet, Event.cacheWrite], ["quote"], false)
    else ([Event.queuedCall NetCall.sendQuoteTweet], [], false)

/-- Embedding of the per-tweet body of `processTweetActions`: skip already
processed tweets and tweets without a decision; run like and retweet as
direct client calls with caught errors; run the quote branch, whose empty
generated content hits a plain `return` that exits the whole
`processTweetActions` call; run the reply via `handleTextOnlyReply`; finally
write the completion memory record with the executed-actions list and push
the result row. -/
def processOneTweet (inp : TweetActionInput) : ProcessOneResult :=
  if inp.alreadyProcessed then
    { events := [], executedActions := [], memoryRecorded := false,
      abortsRun := false, resultPushed := false }
  else
    match inp.actionResponse with
    | none =>
      { events := [], executedActions := [], memoryRecorded := false,
        abortsRun := false, resultPushed := false }
    | some ar =>
      let likeEvs := if ar.like then [Event.directCall NetCall.likeTweet] else []
      let likeExec := if ar.like && inp.likeOk then ["like"] else []
      let rtEvs := if ar.retweet then [Event.directCall NetCall.retweet] else []
      let rtExec := if ar.retweet && inp.retweetOk then ["retweet"] else []
      let quoteStep : List Event × List String × Bool :=
        if ar.quote then quoteTweetStep inp else ([], [], false)
      if quoteStep.2.2 then
        { events := likeEvs ++ rtEvs ++ quoteStep.1,
          executedActions := likeExec ++ rtExec,
          memoryRecorded := false, abortsRun := true, resultPushed := false }
      else
        let replyStep := if ar.reply then handleTextOnlyReply inp else ([], [])
        let executed := likeExec ++ rtExec ++ quoteStep.2.1 ++ replyStep.2
        { events := likeEvs ++ rtEvs ++ quoteStep.1 ++ replyStep.1
            ++ [Event.memoryWrite executed],
          executedActions := executed,
          memoryRecorded := true, abortsRun := false, resultPushed := true }

/-- Fold of `processTweetActions` over the fetched timeline: an aborting
tweet ends the run, discarding the results array (the function returns
before reaching its final `return results`). -/
def processTweetList : List TweetActionInput → List Event × List (Nat × List String) × Bool
  | [] => ([], [], true)
  | inp :: rest =>
    let r := processOneTweet inp
    if r.abortsRun then (r.events, [], false)
    else
      let tailRes := processTweetList rest
      (r.events ++ tailRes.1,
       (if r.resultPushed then [(inp.tweetId, r.executedActions)] else []) ++ tailRes.2.1,
       tailRes.2.2)

/-- Entry of `processTweetActions`, including the `isProcessing`
reentrancy guard: a call while a pass is active returns `null` and does
nothing. -/
def processTweetActions (isProcessing : Bool) (inputs : List TweetActionInput) :
    Option (List Event × List (Nat × List String) × Bool) :=
  if isProcessing then none else some (processTweetList inputs)

/-- The top-level steps `start(postImmediately)` performs, in order. -/
inductive StartStep where
  | startApprovedTweetsLoop
  | generateImmediately
  | startGenerateNewTweetLoop
  | startProcessActionsLoop
deriving DecidableEq

/-- Embedding of `start`: it launches the approved-tweets loop, optionally
generates once immediately, calls `generateNewTweetLoop()` (line 715),
conditionally launches the action-processing loop, and then calls
`generateNewTweetLoop()` a second time (line 732). -/
def start (postImmediately enableActionProcessing : Bool) : List StartStep :=
  [StartStep.startApprovedTweetsLoop]
    ++ (if postImmediately then [StartStep.generateImmediately] else [])
    ++ [StartStep.startGenerateNewTweetLoop]
    ++ (if enableActionProcessing then [StartStep.startProcessActionsLoop] else [])
    ++ [StartStep.startGenerateNewTweetLoop]

/-- How many generation timer chains a `start` call launches. -/
def generationChainCount (postImmediately enableActionProcessing : Bool) : Nat :=
  ((start postImmediately enableActionProcessing).filter
    (fun st => st = StartStep.startGenerateNewTweetLoop)).length

/-- One `generateNewTweetLoop` chain: the `setTimeout` body runs
`generateNewTweet` once and then reschedules itself, so a chain fires once
per elapsed interval. -/
def chainFirings (intervalsElapsed : Nat) : Nat := intervalsElapsed

/-- Total `generateNewTweet` invocations from the timer chains after a
number of elapsed intervals (excluding any immediate generation). -/
def generationsAfterIntervals (postImmediately enableActionProcessing : Bool)
    (intervalsElapsed : Nat) : Nat :=
  generationChainCount postImmediately enableActionProcessing
    * chainFirings intervalsElapsed

/-- Default of `POST_INTERVAL_MIN` in `randomFutureDate`. -/
def POST_INTERVAL_MIN : Int := 12

/-- Default of `POST_INTERVAL_MAX` in `randomFutureDate`. -/
def POST_INTERVAL_MAX : Int := 24

/-- The minute offset computed by `randomFutureDate`:
`Math.floor(Math.random() * (maxMinutes - minMinutes + 120)) + minMinutes`,
with `Math.random()` modelled as an arbitrary rational in `[0, 1)`. -/
def randomMinutes (r : ℚ) (minMinutes maxMinutes : Int) : Int :=
  Int.floor (r * ((maxMinutes - minMinutes + 120 : Int) : ℚ)) + minMinutes

/-- Embedding of `randomFutureDate` (with the default min/max settings):
the last known post time plus the random minute offset, in milliseconds. -/
def randomFutureDate (lastPostTimestamp : Int) (r : ℚ) : Int :=
  lastPostTimestamp + randomMinutes r POST_INTERVAL_MIN POST_INTERVAL_MAX * 60 * 1000

/-- Whether an event is a tweet-creation send (new post, quote or reply)
issued directly, outside the request queue. -/
def isDirectTweetCreate : Event → Bool
  | Event.directCall NetCall.sendTweet => true
  | Event.directCall NetCall.sendQuoteTweet => true
  | _ => false

/-- Whether an event is a network call submitted through the request
queue. -/
def isQueuedCall : Event → Bool
  | Event.queuedCall _ => true
  | _ => false

/-- The fenced LLM payload with an escaped newline used by the content
generator claim. -/
def fencedEscapedNewlineInput : List Char :=
  "```json\n\x7b\"text\":\"Hello\\nWorld\"\x7d\n```".toList

/-- A timeline tweet whose decision flags only `like`, with a successful
client call. -/
def likeOnlyActionInput : TweetActionInput :=
  { tweetId := 3, alreadyProcessed := false,
    actionResponse := some { like := true, retweet := false, quote := false, reply := false },
    likeOk := true, retweetOk := true,
    quoteGen := GenResult.ok ['x'], quoteBodyOk := true,
    replyGen := GenResult.ok ['y'], replyBodyOk := true }

/-- A timeline tweet flagged for all four actions whose quote content
generation yields an empty string. -/
def quoteEmptyActionInput : TweetActionInput :=
  { tweetId := 7, alreadyProcessed := false,
    actionResponse := some { like := true, retweet := true, quote := true, reply := true },
    likeOk := true, retweetOk := true,
    quoteGen := GenResult.ok [], quoteBodyOk := true,
    replyGen := GenResult.ok ("A reply.".toList), replyBodyOk := true }

/-- A timeline tweet flagged for like, retweet and reply whose reply
content generation throws. -/
def replyThrowsActionInput : TweetActionInput :=
  { tweetId := 8, alreadyProcessed := false,
    actionResponse := some { like := true, retweet := true, quote := false, reply := true },
    likeOk := true, retweetOk := true,
    quoteGen := GenResult.ok ['x'], quoteBodyOk := true,
    replyGen := GenResult.throws, replyBodyOk := true }

end ReduxProtocol

namespace ReduxProtocol

/-- Rows with a given id after a status update are exactly the original
rows with that id, each carrying the new status. -/
theorem getSentTweetById_updateTweetStatus (store : Store) (id : Nat)
    (st : TweetStatus) :
    getSentTweetById (updateTweetStatus store id st) id
      = (getSentTweetById store id).map (fun t => { t with status := st }) := by
  induction store with
  | nil => rfl
  | cons t rest ih =>
    by_cases h : t.id = id <;>
      simp [getSentTweetById, updateTweetStatus, List.filter_cons, h] at ih ⊢ <;>
      simpa [getSentTweetById, updateTweetStatus] using ih

/-- A status update does not erase the rows of an id. -/
theorem getSentTweetById_update_ne_nil (store : Store) (id : Nat)
    (st : TweetStatus) (hrow : getSentTweetById store id ≠ []) :
    getSentTweetById (updateTweetStatus store id st) id ≠ [] := by
  rw [getSentTweetById_updateTweetStatus]
  simpa using hrow

/-- After setting an existing id to `"sent"`, the duplicate check of
`checkAndSendApprovedTweets` sees a `"sent"` status. -/
theorem contains_sent_after_update (store : Store) (id : Nat)
    (hrow : getSentTweetById store id ≠ []) :
    ((getSentTweetById (updateTweetStatus store id TweetStatus.sent) id).map
        (fun t => t.status)).contains TweetStatus.sent = true := by
  rw [getSentTweetById_updateTweetStatus]
  cases h : getSentTweetById store id with
  | nil => exact absurd h hrow
  | cons a l => simp




/-- A quote-branch trace contains no unqueued tweet-creation call. -/
theorem quoteTweetStep_filter_direct (inp : TweetActionInput) :
    (quoteTweetStep inp).1.filter isDirectTweetCreate = [] := by
  unfold quoteTweetStep
  cases inp.quoteGen with
  | throws => rfl
  | ok s =>
    by_cases hs : s.isEmpty <;> by_cases hb : inp.quoteBodyOk <;>
      simp [hs, hb, isDirectTweetCreate]

/-- A reply trace contains no unqueued tweet-creation call. -/
theorem handleTextOnlyReply_filter_direct (inp : TweetActionInput) :
    (handleTextOnlyReply inp).1.filter isDirectTweetCreate = [] := by
  unfold handleTextOnlyReply
  cases inp.replyGen with
  | throws => rfl
  | ok s =>
    by_cases hs : s.isEmpty <;> by_cases hb : inp.replyBodyOk <;>
      simp [hs, hb, isDirectTweetCreate]

/-- A `sendTweetAndUpdateCache` trace contains no unqueued tweet-creation
call. -/
theorem sendTweetAndUpdateCache_filter_direct (store : Store)
    (sid : Option Nat) (outcome : DispatchOutcome) :
    ((sendTweetAndUpdateCache store sid outcome).2).filter isDirectTweetCreate = [] := by
  cases outcome <;> cases sid <;> simp [sendTweetAndUpdateCache, isDirectTweetCreate]

/-- Claim C1: the claim states that `generateNewTweet` performs no network
send itself and that a candidate is only sent by the approved-dispatch loop
after approval.  The code violates this: evaluated on a plain non-dry-run
generation run, `generateNewTweet` itself submits the queued `sendTweet`
right after saving, while the saved candidate row still carries `"pending"`
status (it is never approved, and its status is never updated). -/
theorem generateNewTweet_sends_before_approval :
    Event.queuedCall NetCall.sendTweet
        ∈ (generateNewTweet [] 1 false ("Hello world.".toList) DispatchOutcome.success).2
    ∧ (generateNewTweet [] 1 false ("Hello world.".toList) DispatchOutcome.success).1
        = [{ id := 1, content := "Hello world.".toList, status := TweetStatus.pending }] := by
  decide

/-- Claim C2, counterexample: dispatching the same approved id twice is not
always a single network send.  When the first dispatch's delivery returns a
malformed body, the row is rewritten from the claimed `"sent"` to
`"error"`, the second call's duplicate check does not see a `"sent"`
status, and a second network send goes out. -/
theorem dispatch_twice_bad_body_double_send :
    tweetSendCount (dispatchTwice
      [{ id := 1, content := [], status := TweetStatus.approved }] 1
      DispatchOutcome.badBody DispatchOutcome.success).2 = 2 := by
  decide

/-- When the duplicate check sees a `"sent"` status, dispatch is a no-op. -/
theorem dispatchApprovedTweet_skip (store : Store) (tweetId : Nat)
    (o : DispatchOutcome)
    (h : ((getSentTweetById store tweetId).map (fun t => t.status)).contains
        TweetStatus.sent = true) :
    dispatchApprovedTweet store tweetId false o = (store, []) := by
  simp only [dispatchApprovedTweet, h, Bool.false_eq_true, if_false, if_true]

/-- When the duplicate check sees no `"sent"` status, dispatch claims the
row and runs the delivery. -/
theorem dispatchApprovedTweet_proceed (store : Store) (tweetId : Nat)
    (o : DispatchOutcome)
    (h : ((getSentTweetById store tweetId).map (fun t => t.status)).contains
        TweetStatus.sent = false) :
    dispatchApprovedTweet store tweetId false o
      = ((sendTweetAndUpdateCache (markTweetAsSent store tweetId) (some tweetId) o).1,
         Event.dbMarkSent tweetId
           :: (sendTweetAndUpdateCache (markTweetAsSent store tweetId) (some tweetId) o).2) := by
  cases o <;>
    simp only [dispatchApprovedTweet, sendTweetAndUpdateCache, h,
      Bool.false_eq_true, if_false, if_true]

/-- Claim C2, amended: for a stored id not yet in `"sent"` status, two
dispatch calls produce exactly one network send provided the first call's
delivery does not end in a malformed response body (success, or a queue
error caught inside `sendTweetAndUpdateCache`): the claim-to-`"sent"`
performed before delivery makes the second call's duplicate check fire, so
the second call emits no events and leaves the store unchanged. -/
theorem dispatch_twice_single_send (store : Store) (tweetId : Nat)
    (o1 o2 : DispatchOutcome)
    (hrow : getSentTweetById store tweetId ≠ [])
    (hnew : ((getSentTweetById store tweetId).map (fun t => t.status)).contains
        TweetStatus.sent = false)
    (h1 : o1 ≠ DispatchOutcome.badBody) :
    tweetSendCount (dispatchTwice store tweetId o1 o2).2 = 1
    ∧ (dispatchApprovedTweet (dispatchApprovedTweet store tweetId false o1).1
        tweetId false o2).2 = []
    ∧ (dispatchApprovedTweet (dispatchApprovedTweet store tweetId false o1).1
        tweetId false o2).1 = (dispatchApprovedTweet store tweetId false o1).1 := by
  have hskipMark : ((getSentTweetById (markTweetAsSent store tweetId) tweetId).map
      (fun t => t.status)).contains TweetStatus.sent = true := by
    unfold markTweetAsSent
    exact contains_sent_after_update store tweetId hrow
  have hrowMark : getSentTweetById (markTweetAsSent store tweetId) tweetId ≠ [] := by
    unfold markTweetAsSent
    exact getSentTweetById_update_ne_nil store tweetId TweetStatus.sent hrow
  cases o1 with
  | badBody => exact absurd rfl h1
  | queueThrow =>
    have e1 : dispatchApprovedTweet store tweetId false DispatchOutcome.queueThrow
        = (markTweetAsSent store tweetId,
           [Event.dbMarkSent tweetId, Event.queuedCall NetCall.sendTweet]) := by
      rw [dispatchApprovedTweet_proceed store tweetId DispatchOutcome.queueThrow hnew]
      rfl
    have e2 : dispatchApprovedTweet (markTweetAsSent store tweetId) tweetId false o2
        = (markTweetAsSent store tweetId, []) :=
      dispatchApprovedTweet_skip (markTweetAsSent store tweetId) tweetId o2 hskipMark
    refine ⟨?_, ?_, ?_⟩ <;>
      simp [dispatchTwice, e1, e2, tweetSendCount, isTweetSend]
  | success =>
    have e1 : dispatchApprovedTweet store tweetId false DispatchOutcome.success
        = (updateTweetStatus (markTweetAsSent store tweetId) tweetId TweetStatus.sent,
           [Event.dbMarkSent tweetId, Event.queuedCall NetCall.sendTweet,
            Event.dbUpdateStatus tweetId TweetStatus.sent,
            Event.cacheWrite, Event.cacheWrite, Event.memoryWrite []]) := by
      rw [dispatchApprovedTweet_proceed store tweetId DispatchOutcome.success hnew]
      rfl
    have hskip2 : ((getSentTweetById
        (updateTweetStatus (markTweetAsSent store tweetId) tweetId TweetStatus.sent)
        tweetId).map (fun t => t.status)).contains TweetStatus.sent = true :=
      contains_sent_after_update (markTweetAsSent store tweetId) tweetId hrowMark
    have e2 : dispatchApprovedTweet
        (updateTweetStatus (markTweetAsSent store tweetId) tweetId TweetStatus.sent)
        tweetId false o2
        = (updateTweetStatus (markTweetAsSent store tweetId) tweetId TweetStatus.sent, []) :=
      dispatchApprovedTweet_skip _ tweetId o2 hskip2
    refine ⟨?_, ?_, ?_⟩ <;>
      simp [dispatchTwice, e1, e2, tweetSendCount, isTweetSend]

/-- Claim C2, witness: the amended idempotence theorem applied to a
concrete store holding one approved tweet, with both deliveries
succeeding. -/
theorem dispatch_twice_single_send_applied :
    tweetSendCount (dispatchTwice
        [{ id := 1, content := [], status := TweetStatus.approved }] 1
        DispatchOutcome.success DispatchOutcome.success).2 = 1
    ∧ (dispatchApprovedTweet (dispatchApprovedTweet
        [{ id := 1, content := [], status := TweetStatus.approved }] 1 false
        DispatchOutcome.success).1 1 false DispatchOutcome.success).2 = []
    ∧ (dispatchApprovedTweet (dispatchApprovedTweet
        [{ id := 1, content := [], status := TweetStatus.approved }] 1 false
        DispatchOutcome.success).1 1 false DispatchOutcome.success).1
      = (dispatchApprovedTweet
        [{ id := 1, content := [], status := TweetStatus.approved }] 1 false
        DispatchOutcome.success).1 :=
  dispatch_twice_single_send
    [{ id := 1, content := [], status := TweetStatus.approved }] 1
    DispatchOutcome.success DispatchOutcome.success
    (by decide) (by decide) (by decide)

/-- Claim C3: the claim's first half holds — when the reply content
generation throws, like and retweet still execute and the completion
record lists them — but the second half fails on the code: when the QUOTE
action's content generation yields nothing usable, the branch's plain
`return` aborts the whole `processTweetActions` call, so the reply action
is never attempted, the item's completion memory record is never written,
and the results of the pass (including any later tweets) are discarded. -/
theorem processTweetActions_partial_failure :
    (processOneTweet replyThrowsActionInput).executedActions = ["like", "retweet"]
    ∧ (processOneTweet replyThrowsActionInput).memoryRecorded = true
    ∧ (processOneTweet quoteEmptyActionInput).executedActions = ["like", "retweet"]
    ∧ (processOneTweet quoteEmptyActionInput).memoryRecorded = false
    ∧ (processOneTweet quoteEmptyActionInput).abortsRun = true
    ∧ Event.queuedCall NetCall.sendTweet ∉ (processOneTweet quoteEmptyActionInput).events
    ∧ (processTweetList [quoteEmptyActionInput, replyThrowsActionInput]).2.1 = [] := by
  decide

/-- Claim C4, counterexample: the like action's network call is issued
directly on the twitter client, not through a queue-submitted task — its
trace holds a direct call and no queued call at all. -/
theorem like_action_sent_outside_queue :
    Event.directCall NetCall.likeTweet ∈ (processOneTweet likeOnlyActionInput).events
    ∧ ((processOneTweet likeOnlyActionInput).events).filter isQueuedCall = [] := by
  decide

/-- Claim C4, amended: every tweet-creation send (new post, approved
dispatch, quote, reply) is routed through the request queue — no trace of
the three loops contains a direct tweet-creation call — while the like and
retweet actions call the client directly, outside the queue. -/
theorem tweet_creation_sends_queued :
    (∀ inp : TweetActionInput,
      ((processOneTweet inp).events).filter isDirectTweetCreate = [])
    ∧ (∀ store newId dryRun content outcome,
      (((generateNewTweet store newId dryRun content outcome).2)).filter
        isDirectTweetCreate = [])
    ∧ (∀ store tweetId dryRun outcome,
      (((dispatchApprovedTweet store tweetId dryRun outcome).2)).filter
        isDirectTweetCreate = []) := by
  refine ⟨?_, ?_, ?_⟩
  · intro inp
    have hq := quoteTweetStep_filter_direct inp
    have hrep := handleTextOnlyReply_filter_direct inp
    unfold processOneTweet
    split
    · rfl
    split
    · rfl
    rename_i ar heq
    by_cases hl : ar.like <;> by_cases hrt : ar.retweet <;>
      by_cases hqf : ar.quote <;> by_cases hrp : ar.reply <;>
      simp only [hl, hrt, hqf, hrp, if_true, if_false, Bool.false_eq_true] <;>
      split <;>
      simp [List.filter_append, hq, hrep, isDirectTweetCreate]
  · intro store newId dryRun content outcome
    unfold generateNewTweet
    split
    · rfl
    split
    · rfl
    split
    · rfl
    cases outcome <;> simp [isDirectTweetCreate]
  · intro store tweetId dryRun outcome
    unfold dispatchApprovedTweet
    split
    · rfl
    dsimp only
    split
    · rfl
    cases outcome <;> simp [sendTweetAndUpdateCache, isDirectTweetCreate]

/-- Claim C5: the first two truncation scenarios behave as stated (period
at position 50 under limit 100 gives the first 51 characters; no period
with a space at position 90 gives the first 90 characters plus the
ellipsis), but the third fails on the code: with neither a period nor a
space, `lastIndexOf` returns `-1` and `slice(0, -1)` keeps all but the last
character, so the output is 299 characters plus the ellipsis — length 302,
far beyond the limit — instead of `limit-3` characters. -/
theorem truncateToCompleteSentence_three_scenarios :
    truncateToCompleteSentence
        (List.replicate 50 'a' ++ ['.'] ++ List.replicate 249 'b') 100
      = List.replicate 50 'a' ++ ['.']
    ∧ truncateToCompleteSentence
        (List.replicate 90 'a' ++ [' '] ++ List.replicate 209 'b') 100
      = List.replicate 90 'a' ++ ellipsis
    ∧ truncateToCompleteSentence (List.replicate 300 'a') 100
      = List.replicate 299 'a' ++ ellipsis
    ∧ (truncateToCompleteSentence (List.replicate 300 'a') 100).length = 302 := by
  decide

/-- Claim C6, counterexample: on the fenced JSON payload with an escaped
newline, the content generator's post-processing does not return the
extracted text. -/
theorem generateTweetContent_fenced_newline_not_extracted :
    generateTweetContent fencedEscapedNewlineInput ≠ "Hello\nWorld".toList := by
  decide

/-- Claim C6, amended: the post-processing unescapes `\n` BEFORE the JSON
parse, which turns the payload into invalid JSON (a raw newline inside a
string literal), so extraction fails and the function falls back to the
cleaned raw string: fences stripped and newline unescaped, but with the
JSON wrapper still present. -/
theorem generateTweetContent_fenced_newline_fallback :
    generateTweetContent fencedEscapedNewlineInput
      = "\x7b\"text\":\"Hello\nWorld\"\x7d".toList := by
  decide

/-- Claim C7: the claim states one generation per interval from a single
timer chain, but `start` invokes `generateNewTweetLoop()` twice, launching
two independent self-rescheduling chains, so two `generateNewTweet`
invocations occur per computed interval. -/
theorem start_two_generation_chains :
    (∀ postImmediately enableActionProcessing : Bool,
      generationChainCount postImmediately enableActionProcessing = 2)
    ∧ generationsAfterIntervals false true 1 = 2 := by
  decide

/-- Claim C8: with the default minimum 12 and maximum 24 minutes, every
date `randomFutureDate` can produce lies between 12 and 144 minutes after
the reference last-post time, for every value of the uniform random source
in `[0, 1)` (the actual maximum offset is 143 minutes). -/
theorem randomFutureDate_bounds (lastPostTimestamp : Int) (r : ℚ)
    (h0 : 0 ≤ r) (h1 : r < 1) :
    lastPostTimestamp + 12 * 60 * 1000 ≤ randomFutureDate lastPostTimestamp r
    ∧ randomFutureDate lastPostTimestamp r ≤ lastPostTimestamp + 144 * 60 * 1000 := by
  have hlow : (0 : Int) ≤ Int.floor (r * (132 : ℚ)) :=
    Int.floor_nonneg.mpr (by positivity)
  have hup : Int.floor (r * (132 : ℚ)) ≤ 131 := by
    have hx : r * (132 : ℚ) < ((132 : Int) : ℚ) := by push_cast; nlinarith
    have := Int.floor_lt.mpr hx
    omega
  unfold randomFutureDate randomMinutes POST_INTERVAL_MIN POST_INTERVAL_MAX
  norm_num
  constructor <;> linarith [hlow, hup]

/-- Claim C8, witness: the bound theorem applied at reference time 0 and
random value one half. -/
theorem randomFutureDate_bounds_applied :
    (0 : Int) + 12 * 60 * 1000 ≤ randomFutureDate 0 (1 / 2)
    ∧ randomFutureDate 0 (1 / 2) ≤ (0 : Int) + 144 * 60 * 1000 :=
  randomFutureDate_bounds 0 (1 / 2) (by norm_num) (by norm_num)

end ReduxProtocol
